import Mathlib

/-!
# Verification of `carido-vo2-utils.py`

A shallow embedding of the numeric/tabular core of the cardio-vo2 utility
module, together with theorems settling the specification claims.

Conventions of the embedding:

* Finite floating-point numbers are modelled as rationals (`ℚ`); where NaN /
  infinity semantics matter (the `efficiency` function) we use the explicit
  `PyFloat` type.
* A pandas `DataFrame` is modelled as `DF`: a list of column names together
  with a list of rows, each row a total function from column names to cell
  values (`CellVal`).  A cell is a numeric value, a NaN/missing marker, or a
  string carrying what `pd.to_numeric(…, errors="coerce")` would yield for it.
* Fallible pandas operations (attribute errors, `KeyError` on a missing
  column) are modelled with `Except String`.
-/

/-- A cell of a tabular record.  `str p` is a string cell; `p` records the
result `pd.to_numeric(…, errors="coerce")` would produce for it (`none` when
the string is non-numeric). -/
inductive CellVal where
  | num (q : ℚ)
  | na
  | str (parsed : Option ℚ)
deriving DecidableEq

/-- Models `pd.to_numeric(cell, errors="coerce")` on one cell: numbers pass through,
NaN stays missing, strings parse or coerce to NaN. -/
def CellVal.toNumeric : CellVal → Option ℚ
  | .num q => some q
  | .na => none
  | .str p => p

/-- Models `pd.isna` on one cell. -/
def CellVal.isna : CellVal → Bool
  | .na => true
  | _ => false

/-- The numeric value of a cell, with an (unreachable for valid cells) default
of `0`. -/
def CellVal.qval (v : CellVal) : ℚ := v.toNumeric.getD 0

/-- The cell that `pd.to_numeric(…, errors="coerce")` writes back into a
coerced column. -/
def coerceCell (v : CellVal) : CellVal :=
  match v.toNumeric with
  | some q => .num q
  | none => .na

/-- A row of a DataFrame: a total map from column names to cells (columns not
listed in `DF.cols` are irrelevant). -/
def Row : Type := String → CellVal

/-- A pandas DataFrame: its column names and its rows. -/
structure DF where
  cols : List String
  rows : List Row

/-- Write one cell of a row (`row[c] = v`). -/
def Row.update (r : Row) (c : String) (v : CellVal) : Row :=
  fun c' => if c' = c then v else r c'

/-- Models `df[c] = pd.to_numeric(df[c], errors="coerce")`: coerce one column of
every row. -/
def DF.coerceCol (d : DF) (c : String) : DF :=
  ⟨d.cols, d.rows.map (fun r => r.update c (coerceCell (r c)))⟩

/-- Coerce a list of columns of one row (row-level view of the column loop). -/
def coerceRow (cs : List String) (r : Row) : Row :=
  cs.foldl (fun r c => r.update c (coerceCell (r c))) r

/- ------------------------------------------------------------------ -/
/- Formula library (source lines 29–66).  Pure arithmetic over ℚ.      -/
/- ------------------------------------------------------------------ -/

/-- Source `vo2_treadmill_gross_mLkgmin` (lines 29–35): ACSM walking gross
VO2.  `S = speed_mph * 26.8224`, `G = grade_pct / 100`,
result `3.5 + 0.1*S + 1.8*S*G`. -/
def vo2_treadmill_gross_mLkgmin (speed_mph grade_pct : ℚ) : ℚ :=
  let S := speed_mph * 26.8224
  let G := grade_pct / 100
  3.5 + 0.1 * S + 1.8 * S * G

/-- Source `kcal_per_min_from_vo2_mLkgmin` (lines 43–46):
`(vo2 * mass_kg / 1000) * 5.0`. -/
def kcal_per_min_from_vo2_mLkgmin (vo2_mLkgmin mass_kg : ℚ) : ℚ :=
  let vo2_L_min := vo2_mLkgmin * mass_kg / 1000
  vo2_L_min * 5

/-- Source `net_kcal_per_min_from_gross_vo2` (lines 48–50): subtracts the
resting 3.5 mL/kg/min before converting to kcal/min. -/
def net_kcal_per_min_from_gross_vo2 (vo2_gross_mLkgmin mass_kg : ℚ) : ℚ :=
  kcal_per_min_from_vo2_mLkgmin (vo2_gross_mLkgmin - 3.5) mass_kg

/- ------------------------------------------------------------------ -/
/- IEEE-style value model for `efficiency` (source lines 68–75).       -/
/- ------------------------------------------------------------------ -/

/-- A numpy double restricted to the cases the claims need: a finite value,
the two infinities, or NaN (signed zero is not distinguished; it never
affects finiteness, which is all `efficiency` inspects). -/
inductive PyFloat where
  | fin (q : ℚ)
  | inf
  | ninf
  | nan
deriving DecidableEq

/-- Models `np.isfinite` on one element. -/
def PyFloat.isfinite : PyFloat → Bool
  | .fin _ => true
  | _ => false

/-- Element-wise numpy division under `errstate(divide="ignore",
invalid="ignore")`: `x/0` gives a signed infinity, `0/0` and any NaN operand
give NaN, `finite/±inf` gives `0`, `±inf/±inf` gives NaN. -/
def PyFloat.div : PyFloat → PyFloat → PyFloat
  | .nan, _ => .nan
  | .fin a, .fin b =>
      if b = 0 then (if a = 0 then .nan else if 0 < a then .inf else .ninf)
      else .fin (a / b)
  | .fin _, .inf => .fin 0
  | .fin _, .ninf => .fin 0
  | .fin _, .nan => .nan
  | .inf, .fin b => if 0 ≤ b then .inf else .ninf
  | .inf, .inf => .nan
  | .inf, .ninf => .nan
  | .inf, .nan => .nan
  | .ninf, .fin b => if 0 ≤ b then .ninf else .inf
  | .ninf, .inf => .nan
  | .ninf, .ninf => .nan
  | .ninf, .nan => .nan

/-- Source `efficiency` (lines 68–75), per element: `eta = mech / met`, then
`eta[~np.isfinite(eta)] = np.nan`.  Note the code replaces only NON-FINITE
quotients by NaN; its docstring promises "np.nan where met_W<=0". -/
def efficiency (mech_W met_W : PyFloat) : PyFloat :=
  let eta := mech_W.div met_W
  if eta.isfinite then eta else PyFloat.nan

/- ------------------------------------------------------------------ -/
/- Data cleaner `remove_flat_treadmill` (source lines 79–90).          -/
/- ------------------------------------------------------------------ -/

/-- The error raised by `out["modality"].astype(str).strip()` on line 86: a
pandas `Series` has no `strip` method (string methods live under `.str`), so
every call on a non-empty frame raises. -/
def attrErrStrip : String :=
  "AttributeError: Series object has no attribute strip"

/-- The error raised by `out["modality"]` when the column is absent. -/
def keyErrModality : String := "KeyError: modality"

/-- Source `remove_flat_treadmill` (lines 79–90).  An empty (or `None`)
frame is returned unchanged (line 83–84).  Otherwise line 86 evaluates
`out["modality"].astype(str).strip()`, which raises `AttributeError`
(`KeyError` first if there is no `modality` column); lines 87–90 — the
intended drop of flat treadmill rows — are unreachable. -/
def remove_flat_treadmill (df : DF) (tol_pct : ℚ) : Except String DF :=
  if df.rows.isEmpty || df.cols.isEmpty then .ok df
  else if "modality" ∈ df.cols then .error attrErrStrip
  else .error keyErrModality

/-- The cleaner with the caller's frame made explicit: the result
pairs the caller's `df` after the call with the returned value.  Line 85
takes `out = df.copy()`; every subsequent write (line 86 onward) targets
`out`, and the first such write raises before completing, so the caller's
frame is returned untouched in every branch. -/
def remove_flat_treadmill_frame (df : DF) (tol_pct : ℚ) :
    DF × Except String DF :=
  if df.rows.isEmpty || df.cols.isEmpty then (df, .ok df)
  else
    let out := df
    if "modality" ∈ out.cols then (df, .error attrErrStrip)
    else (df, .error keyErrModality)

/- ------------------------------------------------------------------ -/
/- Grouping machinery shared by the two aggregators.                   -/
/- ------------------------------------------------------------------ -/

/-- Strict lexicographic order on `(speed, grade)` keys. -/
def keyLt (a b : ℚ × ℚ) : Prop :=
  a.1 < b.1 ∨ (a.1 = b.1 ∧ a.2 < b.2)

instance (a b : ℚ × ℚ) : Decidable (keyLt a b) := by
  unfold keyLt; infer_instance

/-- Insert a pair key into a strictly sorted duplicate-free key list. -/
def insertKey (x : ℚ × ℚ) : List (ℚ × ℚ) → List (ℚ × ℚ)
  | [] => [x]
  | y :: ys => if x = y then y :: ys
               else if keyLt x y then x :: y :: ys
               else y :: insertKey x ys

/-- The sorted duplicate-free key list of `pandas.groupby(sort=True)` over
pair keys. -/
def sortedKeys (l : List (ℚ × ℚ)) : List (ℚ × ℚ) := l.foldr insertKey []

/-- Insert a scalar key into a strictly sorted duplicate-free key list. -/
def insertQKey (x : ℚ) : List ℚ → List ℚ
  | [] => [x]
  | y :: ys => if x = y then y :: ys
               else if x < y then x :: y :: ys
               else y :: insertQKey x ys

/-- The sorted duplicate-free key list of `pandas.groupby(sort=True)` over a
scalar key. -/
def sortedQKeys (l : List ℚ) : List ℚ := l.foldr insertQKey []

/-- Pandas `"mean"` aggregation over the cells of a column slice: ignores
NaN, and is NaN (here `none`) when no numeric value remains. -/
def meanSkip (cells : List CellVal) : Option ℚ :=
  let xs := cells.filterMap CellVal.toNumeric
  if xs.isEmpty then none else some (xs.sum / xs.length)

/-- Pandas `"count"` aggregation over the cells of a column slice: the number
of non-null cells. -/
def countNonNull (cells : List CellVal) : ℕ :=
  (cells.filter (fun c => !c.isna)).length

/- ------------------------------------------------------------------ -/
/- Aggregator: treadmill summary (source lines 94–126).                -/
/- ------------------------------------------------------------------ -/

/-- The `pick(*names)` helper of `treadmill_efficiency_plot` (source lines
106–109): the first of `names` that is a column of the frame. -/
def pick (cols : List String) : List String → Option String
  | [] => none
  | n :: ns => if n ∈ cols then some n else pick cols ns

/-- The measured-efficiency column chosen on source line 112. -/
def treadEffMeasCol (cols : List String) : Option String :=
  pick cols ["eff_measured", "efficiency_measured"]

/-- The theoretical-efficiency column chosen on source line 113. -/
def treadEffTheoCol (cols : List String) : Option String :=
  pick cols ["eff_theory_net", "efficiency_theory_net"]

/-- The columns coerced by the loop on source lines 116–118 (each of
`[speed, grade, eff_meas, eff_theo]` that is non-`None` and present). -/
def treadCoerceList (cols : List String) : List String :=
  (["speed_mph", "grade_pct"] ++ (treadEffMeasCol cols).toList ++
    (treadEffTheoCol cols).toList).filter (fun c => c ∈ cols)

/-- The `need` subset of source line 121: the dropna subset for the grouping
keys plus the measured-efficiency column when present. -/
def treadNeed (cols : List String) : List String :=
  ["speed_mph", "grade_pct"] ++ (treadEffMeasCol cols).toList

/-- The grouping key of a (coerced) row: its `(speed_mph, grade_pct)`. -/
def keyOf (r : Row) : ℚ × ℚ :=
  ((r "speed_mph").qval, (r "grade_pct").qval)

/-- Rows surviving `df.dropna(subset=need)` after the numeric coercion
(source lines 116–122). -/
def treadKept (df : DF) : List Row :=
  ((treadCoerceList df.cols).foldl DF.coerceCol df).rows.filter
    (fun r => (treadNeed df.cols).all (fun c => !(r c).isna))

/-- One row of the treadmill summary frame.  `eff_meas`/`eff_theory` are
`none` when the corresponding input column is absent (the aggregation is not
requested); an inner `none` is pandas NaN (empty mean). -/
structure TreadRow where
  speed_mph : ℚ
  grade_pct : ℚ
  n : ℕ
  eff_meas : Option (Option ℚ)
  eff_theory : Option (Option ℚ)
deriving DecidableEq

/-- The aggregations of source lines 123–126 on one group. -/
def mkTreadRow (effM effT : Option String) (grp : List Row) (k : ℚ × ℚ) :
    TreadRow :=
  { speed_mph := k.1
    grade_pct := k.2
    n := countNonNull (grp.map (fun r => r "speed_mph"))
    eff_meas := effM.map (fun c => meanSkip (grp.map (fun r => r c)))
    eff_theory := effT.map (fun c => meanSkip (grp.map (fun r => r c))) }

/-- The summarising core of `treadmill_efficiency_plot` (source lines
94–126, 150): coerce the numeric columns, drop rows with NaN in the `need`
subset, group by the exact `(speed_mph, grade_pct)` key (groupby sorts the
keys ascending; the later `sort_values` is the identity on that), aggregate
each group, and return the summary frame.  `dropna`/`groupby` raise
`KeyError` when a grouping column is absent; the plotting and file side
effects (lines 129–148) do not touch the returned frame and are not
modelled. -/
def treadmill_efficiency_plot (tdf : DF) : Except String (List TreadRow) :=
  if "speed_mph" ∈ tdf.cols ∧ "grade_pct" ∈ tdf.cols then
    .ok ((sortedKeys ((treadKept tdf).map keyOf)).map (fun k =>
      mkTreadRow (treadEffMeasCol tdf.cols) (treadEffTheoCol tdf.cols)
        ((treadKept tdf).filter (fun r => decide (keyOf r = k))) k))
  else .error "KeyError"

/- ------------------------------------------------------------------ -/
/- Aggregator: stair summary (source lines 152–172).                   -/
/- ------------------------------------------------------------------ -/

/-- The columns coerced by the loop on source lines 158–160. -/
def stairCoerceList (cols : List String) : List String :=
  (["spm", "aw_active_kcal_min", "theory_net_kcal_min",
    "efficiency_measured", "efficiency_theory_net", "eff_measured",
    "eff_theory_net"]).filter (fun c => c ∈ cols)

/-- The theory-efficiency column pick of source line 163. -/
def stairEffTheoryCol (cols : List String) : Option String :=
  if "efficiency_theory_net" ∈ cols then some "efficiency_theory_net"
  else if "eff_theory_net" ∈ cols then some "eff_theory_net"
  else none

/-- Rows surviving `sta.dropna(subset=["spm"])` after the numeric coercion
(source lines 158–166). -/
def stairKept (df : DF) : List Row :=
  ((stairCoerceList df.cols).foldl DF.coerceCol df).rows.filter
    (fun r => !(r "spm").isna)

/-- One row of the stair summary frame.  `efficiency_theory` is a mean
(`Sum.inl`) when a theory-efficiency column exists, else the row count
(`Sum.inr`) per source line 170. -/
structure StairRow where
  spm : ℚ
  aw : Option ℚ
  net : Option ℚ
  efficiency_theory : Option ℚ ⊕ ℕ
deriving DecidableEq

/-- The aggregations of source lines 168–170 on one group. -/
def mkStairRow (effT : Option String) (grp : List Row) (k : ℚ) : StairRow :=
  { spm := k
    aw := meanSkip (grp.map (fun r => r "aw_active_kcal_min"))
    net := meanSkip (grp.map (fun r => r "theory_net_kcal_min"))
    efficiency_theory :=
      match effT with
      | some c => Sum.inl (meanSkip (grp.map (fun r => r c)))
      | none => Sum.inr (countNonNull (grp.map (fun r => r "spm"))) }

/-- The summarising core of `stair_efficiency_plot` (source lines 152–172,
195): coerce the numeric columns, drop rows with NaN `spm`, group by the
exact `spm` key (sorted ascending), aggregate, and return the summary frame.
`dropna`/`agg` raise `KeyError` when `spm` or an aggregated column is
absent; plotting side effects (lines 174–193) are not modelled. -/
def stair_efficiency_plot (sdf : DF) : Except String (List StairRow) :=
  if "spm" ∈ sdf.cols ∧ "aw_active_kcal_min" ∈ sdf.cols ∧
      "theory_net_kcal_min" ∈ sdf.cols then
    .ok ((sortedQKeys ((stairKept sdf).map
        (fun r => (r "spm").qval))).map (fun k =>
      mkStairRow (stairEffTheoryCol sdf.cols)
        ((stairKept sdf).filter (fun r => decide ((r "spm").qval = k))) k))
  else .error "KeyError"

/-- The rows that survive into the treadmill aggregation, phrased on the raw
input: every column of the `need` subset coerces to a number. -/
def validTread (cols : List String) (r : Row) : Bool :=
  (treadNeed cols).all (fun c => ((r c).toNumeric).isSome)

/-- The group of raw input rows aggregated into the treadmill summary row
with key `k`: the rows that pass the `dropna` validity check and whose
coerced `(speed_mph, grade_pct)` equals `k`. -/
def treadGroup (df : DF) (k : ℚ × ℚ) : List Row :=
  df.rows.filter (fun r => decide (keyOf r = k) && validTread df.cols r)

/-- The group of raw input rows aggregated into the stair summary row with
key `k`: rows with a coercible `spm` equal to `k`. -/
def stairGroup (df : DF) (k : ℚ) : List Row :=
  df.rows.filter (fun r =>
    decide ((r "spm").qval = k) && ((r "spm").toNumeric).isSome)

/- ------------------------------------------------------------------ -/
/- Concrete data frames used as test inputs for the claims.            -/
/- ------------------------------------------------------------------ -/

/-- The spec example row `{"modality": "Treadmill", "grade_pct": 0.0}`. -/
def exFlatRow : Row := fun c =>
  if c = "modality" then .str none
  else if c = "grade_pct" then .num 0
  else .na

/-- One-row frame: a flat treadmill bout. -/
def exFlatDF : DF := ⟨["modality", "grade_pct"], [exFlatRow]⟩

/-- A row `{"modality": "stair", "grade_pct": "abc"}` — a non-numeric grade. -/
def exBadGradeRow : Row := fun c =>
  if c = "modality" then .str none
  else if c = "grade_pct" then .str none
  else .na

/-- One-row frame: a stair row with a non-numeric grade. -/
def exBadGradeDF : DF := ⟨["modality", "grade_pct"], [exBadGradeRow]⟩

/-- A row `{"modality": "stair", "grade_pct": 1.0}`. -/
def exStairCleanRow : Row := fun c =>
  if c = "modality" then .str none
  else if c = "grade_pct" then .num 1
  else .na

/-- One-row frame: a single stair record. -/
def exStairCleanDF : DF := ⟨["modality", "grade_pct"], [exStairCleanRow]⟩

/-- Treadmill record `(speed 3 mph, grade 5 %, measured efficiency 0.10)`. -/
def exTreadRow1 : Row := fun c =>
  if c = "speed_mph" then .num 3
  else if c = "grade_pct" then .num 5
  else if c = "eff_measured" then .num (1/10)
  else .na

/-- Treadmill record `(speed 3 mph, grade 5 %, measured efficiency 0.20)`. -/
def exTreadRow2 : Row := fun c =>
  if c = "speed_mph" then .num 3
  else if c = "grade_pct" then .num 5
  else if c = "eff_measured" then .num (2/10)
  else .na

/-- Treadmill record with valid keys but a missing measured efficiency. -/
def exTreadRowNaN : Row := fun c =>
  if c = "speed_mph" then .num 3
  else if c = "grade_pct" then .num 5
  else if c = "eff_measured" then .na
  else .na

/-- The spec's aggregator example: two records at `(3.0, 5.0)` with measured
efficiencies `0.10` and `0.20`. -/
def exTreadDF : DF :=
  ⟨["speed_mph", "grade_pct", "eff_measured"], [exTreadRow1, exTreadRow2]⟩

/-- Two records at `(3.0, 5.0)`, the second with NaN measured efficiency. -/
def exTreadNaNDF : DF :=
  ⟨["speed_mph", "grade_pct", "eff_measured"], [exTreadRow1, exTreadRowNaN]⟩

/-- Treadmill record with a negative grade `(3.0, -5.0)`. -/
def exTreadNegRow : Row := fun c =>
  if c = "speed_mph" then .num 3
  else if c = "grade_pct" then .num (-5)
  else .na

/-- One-row treadmill frame with a negative grade. -/
def exTreadNegDF : DF := ⟨["speed_mph", "grade_pct"], [exTreadNegRow]⟩

/-- Stair record with a negative cadence `spm = -30`. -/
def exStairNegRow : Row := fun c =>
  if c = "spm" then .num (-30)
  else if c = "aw_active_kcal_min" then .num 5
  else if c = "theory_net_kcal_min" then .num 4
  else .na

/-- One-row stair frame with a negative cadence. -/
def exStairNegDF : DF :=
  ⟨["spm", "aw_active_kcal_min", "theory_net_kcal_min"], [exStairNegRow]⟩

/- ------------------------------------------------------------------ -/
/- Basic lemmas about cells, rows and coercion.                        -/
/- ------------------------------------------------------------------ -/

theorem Row.update_apply (r : Row) (c c' : String) (v : CellVal) :
    r.update c v c' = if c' = c then v else r c' := rfl

theorem toNumeric_coerceCell (v : CellVal) :
    (coerceCell v).toNumeric = v.toNumeric := by
  unfold coerceCell
  cases h : v.toNumeric <;> simp [CellVal.toNumeric, h]

theorem coerceCell_coerceCell (v : CellVal) :
    coerceCell (coerceCell v) = coerceCell v := by
  unfold coerceCell
  cases h : v.toNumeric <;> simp [CellVal.toNumeric]

theorem isna_coerceCell (v : CellVal) :
    (coerceCell v).isna = v.toNumeric.isNone := by
  unfold coerceCell
  cases h : v.toNumeric <;> simp [CellVal.isna]

theorem qval_coerceCell (v : CellVal) : (coerceCell v).qval = v.qval := by
  unfold CellVal.qval
  rw [toNumeric_coerceCell]

theorem coerceRow_nil (r : Row) : coerceRow [] r = r := rfl

theorem coerceRow_cons (c : String) (cs : List String) (r : Row) :
    coerceRow (c :: cs) r = coerceRow cs (r.update c (coerceCell (r c))) := rfl

theorem coerceRow_apply (cs : List String) (r : Row) (c : String) :
    coerceRow cs r c = if c ∈ cs then coerceCell (r c) else r c := by
  induction cs generalizing r with
  | nil => simp [coerceRow_nil]
  | cons c' cs ih =>
    rw [coerceRow_cons, ih]
    by_cases hc : c = c'
    · subst hc
      simp [Row.update_apply, coerceCell_coerceCell, List.mem_cons]
    · simp [Row.update_apply, hc, List.mem_cons]

theorem toNumeric_coerceRow (cs : List String) (r : Row) (c : String) :
    (coerceRow cs r c).toNumeric = (r c).toNumeric := by
  rw [coerceRow_apply]
  by_cases h : c ∈ cs <;> simp [h, toNumeric_coerceCell]

theorem qval_coerceRow (cs : List String) (r : Row) (c : String) :
    (coerceRow cs r c).qval = (r c).qval := by
  unfold CellVal.qval
  rw [toNumeric_coerceRow]

theorem isna_coerceRow (cs : List String) (r : Row) (c : String)
    (h : c ∈ cs) : (coerceRow cs r c).isna = ((r c).toNumeric).isNone := by
  rw [coerceRow_apply]
  simp [h, isna_coerceCell]

theorem keyOf_coerceRow (cs : List String) (r : Row) :
    keyOf (coerceRow cs r) = keyOf r := by
  unfold keyOf
  rw [qval_coerceRow, qval_coerceRow]

theorem coerceCols_cols (cs : List String) (d : DF) :
    (cs.foldl DF.coerceCol d).cols = d.cols := by
  induction cs generalizing d with
  | nil => rfl
  | cons c cs ih => rw [List.foldl_cons, ih]; rfl

theorem coerceCols_rows (cs : List String) (d : DF) :
    (cs.foldl DF.coerceCol d).rows = d.rows.map (coerceRow cs) := by
  induction cs generalizing d with
  | nil => rw [show coerceRow [] = id from rfl, List.map_id]; rfl
  | cons c cs ih =>
    rw [List.foldl_cons, ih]
    show (d.rows.map _).map _ = _
    rw [List.map_map]
    rfl

/- ------------------------------------------------------------------ -/
/- Lemmas about the sorted duplicate-free key lists.                   -/
/- ------------------------------------------------------------------ -/

theorem keyLt_irrefl (a : ℚ × ℚ) : ¬ keyLt a a := by
  unfold keyLt
  intro h
  rcases h with h | ⟨_, h⟩ <;> exact lt_irrefl _ h

theorem keyLt_trans {a b c : ℚ × ℚ} (h1 : keyLt a b) (h2 : keyLt b c) :
    keyLt a c := by
  unfold keyLt at *
  rcases h1 with h1 | ⟨e1, h1⟩ <;> rcases h2 with h2 | ⟨e2, h2⟩
  · exact Or.inl (lt_trans h1 h2)
  · exact Or.inl (e2 ▸ h1)
  · exact Or.inl (e1 ▸ h2)
  · exact Or.inr ⟨e1.trans e2, lt_trans h1 h2⟩

theorem keyLt_total {a b : ℚ × ℚ} (hne : a ≠ b) (h : ¬ keyLt a b) :
    keyLt b a := by
  unfold keyLt at *
  rcases lt_trichotomy a.1 b.1 with h1 | h1 | h1
  · exact absurd (Or.inl h1) h
  · rcases lt_trichotomy a.2 b.2 with h2 | h2 | h2
    · exact absurd (Or.inr ⟨h1, h2⟩) h
    · exact absurd (Prod.ext h1 h2) hne
    · exact Or.inr ⟨h1.symm, h2⟩
  · exact Or.inl h1

theorem mem_insertKey (a x : ℚ × ℚ) (l : List (ℚ × ℚ)) :
    a ∈ insertKey x l ↔ a = x ∨ a ∈ l := by
  induction l with
  | nil => simp [insertKey]
  | cons y ys ih =>
    unfold insertKey
    by_cases h1 : x = y
    · rw [if_pos h1]
      constructor
      · intro h; exact Or.inr h
      · rintro (rfl | h)
        · rw [h1]; exact List.mem_cons_self _ _
        · exact h
    · rw [if_neg h1]
      by_cases h2 : keyLt x y
      · rw [if_pos h2]
        simp only [List.mem_cons]
      · rw [if_neg h2]
        simp only [List.mem_cons, ih]
        tauto

theorem pairwise_insertKey (x : ℚ × ℚ) (l : List (ℚ × ℚ))
    (h : l.Pairwise keyLt) : (insertKey x l).Pairwise keyLt := by
  induction l with
  | nil => simp [insertKey]
  | cons y ys ih =>
    rw [List.pairwise_cons] at h
    unfold insertKey
    by_cases h1 : x = y
    · rw [if_pos h1, List.pairwise_cons]
      exact ⟨h.1, h.2⟩
    · rw [if_neg h1]
      by_cases h2 : keyLt x y
      · rw [if_pos h2, List.pairwise_cons]
        refine ⟨?_, List.pairwise_cons.mpr ⟨h.1, h.2⟩⟩
        intro b hb
        rcases List.mem_cons.mp hb with hb | hb
        · exact hb ▸ h2
        · exact keyLt_trans h2 (h.1 b hb)
      · rw [if_neg h2, List.pairwise_cons]
        refine ⟨?_, ih h.2⟩
        intro b hb
        rcases (mem_insertKey b x ys).mp hb with hb | hb
        · exact hb ▸ keyLt_total h1 h2
        · exact h.1 b hb

theorem mem_sortedKeys (a : ℚ × ℚ) (l : List (ℚ × ℚ)) :
    a ∈ sortedKeys l ↔ a ∈ l := by
  induction l with
  | nil => simp [sortedKeys]
  | cons y ys ih =>
    show a ∈ insertKey y (sortedKeys ys) ↔ _
    rw [mem_insertKey, ih, List.mem_cons]

theorem pairwise_sortedKeys (l : List (ℚ × ℚ)) :
    (sortedKeys l).Pairwise keyLt := by
  induction l with
  | nil => simp [sortedKeys]
  | cons y ys ih => exact pairwise_insertKey y (sortedKeys ys) ih

theorem nodup_sortedKeys (l : List (ℚ × ℚ)) : (sortedKeys l).Nodup := by
  have h := pairwise_sortedKeys l
  exact h.imp (fun hlt => by rintro rfl; exact keyLt_irrefl _ hlt)

theorem mem_insertQKey (a x : ℚ) (l : List ℚ) :
    a ∈ insertQKey x l ↔ a = x ∨ a ∈ l := by
  induction l with
  | nil => simp [insertQKey]
  | cons y ys ih =>
    unfold insertQKey
    by_cases h1 : x = y
    · rw [if_pos h1]
      constructor
      · intro h; exact Or.inr h
      · rintro (rfl | h)
        · rw [h1]; exact List.mem_cons_self _ _
        · exact h
    · rw [if_neg h1]
      by_cases h2 : x < y
      · rw [if_pos h2]
        simp only [List.mem_cons]
      · rw [if_neg h2]
        simp only [List.mem_cons, ih]
        tauto

theorem pairwise_insertQKey (x : ℚ) (l : List ℚ)
    (h : l.Pairwise (· < ·)) : (insertQKey x l).Pairwise (· < ·) := by
  induction l with
  | nil => simp [insertQKey]
  | cons y ys ih =>
    rw [List.pairwise_cons] at h
    unfold insertQKey
    by_cases h1 : x = y
    · rw [if_pos h1, List.pairwise_cons]
      exact ⟨h.1, h.2⟩
    · rw [if_neg h1]
      by_cases h2 : x < y
      · rw [if_pos h2, List.pairwise_cons]
        refine ⟨?_, List.pairwise_cons.mpr ⟨h.1, h.2⟩⟩
        intro b hb
        rcases List.mem_cons.mp hb with hb | hb
        · exact hb ▸ h2
        · exact lt_trans h2 (h.1 b hb)
      · rw [if_neg h2, List.pairwise_cons]
        refine ⟨?_, ih h.2⟩
        intro b hb
        rcases (mem_insertQKey b x ys).mp hb with hb | hb
        · subst hb
          exact lt_of_le_of_ne (le_of_not_lt h2) (fun he => h1 he.symm)
        · exact h.1 b hb

theorem mem_sortedQKeys (a : ℚ) (l : List ℚ) :
    a ∈ sortedQKeys l ↔ a ∈ l := by
  induction l with
  | nil => simp [sortedQKeys]
  | cons y ys ih =>
    show a ∈ insertQKey y (sortedQKeys ys) ↔ _
    rw [mem_insertQKey, ih, List.mem_cons]

theorem pairwise_sortedQKeys (l : List ℚ) :
    (sortedQKeys l).Pairwise (· < ·) := by
  induction l with
  | nil => simp [sortedQKeys]
  | cons y ys ih => exact pairwise_insertQKey y (sortedQKeys ys) ih

theorem nodup_sortedQKeys (l : List ℚ) : (sortedQKeys l).Nodup := by
  have h := pairwise_sortedQKeys l
  exact h.imp (fun hlt => by rintro rfl; exact lt_irrefl _ hlt)

/- ------------------------------------------------------------------ -/
/- Bridge lemmas: the aggregation pipelines phrased on the raw input.  -/
/- ------------------------------------------------------------------ -/

theorem all_congr_mem {α : Type} {l : List α} {f g : α → Bool}
    (h : ∀ a ∈ l, f a = g a) : l.all f = l.all g := by
  induction l with
  | nil => rfl
  | cons x xs ih =>
    rw [List.all_cons, List.all_cons, h x (List.mem_cons_self _ _),
      ih (fun a ha => h a (List.mem_cons_of_mem _ ha))]

theorem filterMap_congr_mem {α β : Type} {l : List α} {f g : α → Option β}
    (h : ∀ a ∈ l, f a = g a) : l.filterMap f = l.filterMap g := by
  induction l with
  | nil => rfl
  | cons x xs ih =>
    rw [List.filterMap_cons, List.filterMap_cons, h x (List.mem_cons_self _ _),
      ih (fun a ha => h a (List.mem_cons_of_mem _ ha))]

theorem pick_mem {cols ns : List String} {c : String}
    (h : pick cols ns = some c) : c ∈ cols := by
  induction ns with
  | nil => simp [pick] at h
  | cons n ns ih =>
    unfold pick at h
    by_cases hn : n ∈ cols
    · rw [if_pos hn] at h
      cases h
      exact hn
    · rw [if_neg hn] at h
      exact ih h

theorem treadNeed_mem_coerce {cols : List String}
    (h1 : "speed_mph" ∈ cols) (h2 : "grade_pct" ∈ cols) {c : String}
    (hc : c ∈ treadNeed cols) : c ∈ treadCoerceList cols := by
  unfold treadNeed at hc
  unfold treadCoerceList
  rw [List.mem_filter]
  rcases List.mem_append.mp hc with hc | hc
  · constructor
    · exact List.mem_append.mpr (Or.inl (List.mem_append.mpr (Or.inl hc)))
    · rcases List.mem_cons.mp hc with rfl | hc
      · simpa using h1
      · rcases List.mem_cons.mp hc with rfl | hc
        · simpa using h2
        · simp at hc
  · constructor
    · exact List.mem_append.mpr
        (Or.inl (List.mem_append.mpr (Or.inr hc)))
    · rcases hco : treadEffMeasCol cols with _ | c'
      · rw [hco] at hc; simp at hc
      · rw [hco] at hc
        simp only [Option.toList_some, List.mem_singleton] at hc
        subst hc
        simpa using pick_mem hco

/-- The `dropna` step after coercion, phrased on the raw rows: `treadKept` is the
image under column coercion of the raw rows whose `need` columns all coerce
to numbers. -/
theorem treadKept_eq (df : DF) (h1 : "speed_mph" ∈ df.cols)
    (h2 : "grade_pct" ∈ df.cols) :
    treadKept df = (df.rows.filter (validTread df.cols)).map
      (coerceRow (treadCoerceList df.cols)) := by
  unfold treadKept
  rw [coerceCols_rows, List.filter_map]
  congr 1
  apply List.filter_congr
  intro r _
  simp only [Function.comp_apply]
  unfold validTread
  apply all_congr_mem
  intro c hc
  rw [isna_coerceRow _ r c (treadNeed_mem_coerce h1 h2 hc)]
  cases (r c).toNumeric <;> rfl

theorem treadKept_keys (df : DF) (h1 : "speed_mph" ∈ df.cols)
    (h2 : "grade_pct" ∈ df.cols) :
    (treadKept df).map keyOf =
      (df.rows.filter (validTread df.cols)).map keyOf := by
  rw [treadKept_eq df h1 h2, List.map_map]
  exact List.map_congr_left (fun r _ => keyOf_coerceRow _ r)

theorem treadKept_group (df : DF) (h1 : "speed_mph" ∈ df.cols)
    (h2 : "grade_pct" ∈ df.cols) (k : ℚ × ℚ) :
    (treadKept df).filter (fun r => decide (keyOf r = k)) =
      (treadGroup df k).map (coerceRow (treadCoerceList df.cols)) := by
  rw [treadKept_eq df h1 h2, List.filter_map]
  unfold treadGroup
  rw [List.filter_filter]
  congr 1
  apply List.filter_congr
  intro r _
  simp only [Function.comp_apply]
  rw [keyOf_coerceRow]

/-- Every aggregated cell slice is insensitive to the column coercion. -/
theorem meanSkip_coerce (L : List String) (c : String) (grpO : List Row) :
    meanSkip ((grpO.map (coerceRow L)).map (fun r => r c)) =
      meanSkip (grpO.map (fun r => r c)) := by
  unfold meanSkip
  have hx : ((grpO.map (coerceRow L)).map (fun r => r c)).filterMap
      CellVal.toNumeric = (grpO.map (fun r => r c)).filterMap
      CellVal.toNumeric := by
    rw [List.map_map, List.filterMap_map, List.filterMap_map]
    exact filterMap_congr_mem (fun r _ => toNumeric_coerceRow L r c)
  rw [hx]

/-- The group sample count `n` is the raw group size: valid rows have a
non-null coerced `speed_mph`. -/
theorem countNonNull_group (df : DF) (h1 : "speed_mph" ∈ df.cols)
    (h2 : "grade_pct" ∈ df.cols) (grpO : List Row)
    (hval : ∀ r ∈ grpO, validTread df.cols r = true) :
    countNonNull ((grpO.map (coerceRow (treadCoerceList df.cols))).map
      (fun r => r "speed_mph")) = grpO.length := by
  unfold countNonNull
  rw [List.map_map]
  simp only [Function.comp_def]
  have hall : ∀ x ∈ grpO.map (fun r => coerceRow (treadCoerceList df.cols) r
      "speed_mph"), (!x.isna) = true := by
    intro x hx
    rcases List.mem_map.mp hx with ⟨r, hr, rfl⟩
    have hs : "speed_mph" ∈ treadNeed df.cols := by
      unfold treadNeed
      simp
    rw [isna_coerceRow _ r _ (treadNeed_mem_coerce h1 h2 hs)]
    have := hval r hr
    unfold validTread at this
    rw [List.all_eq_true] at this
    have hv := this _ hs
    cases hn : (r "speed_mph").toNumeric
    · rw [hn] at hv; simp at hv
    · rfl
  rw [List.filter_eq_self.mpr hall, List.length_map]

theorem spm_mem_stairCoerceList {cols : List String}
    (h : "spm" ∈ cols) : "spm" ∈ stairCoerceList cols := by
  unfold stairCoerceList
  rw [List.mem_filter]
  refine ⟨by simp, by simpa using h⟩

/-- The `dropna(subset=["spm"])` step after coercion, phrased on the raw rows. -/
theorem stairKept_eq (df : DF) (h : "spm" ∈ df.cols) :
    stairKept df = (df.rows.filter
      (fun r => ((r "spm").toNumeric).isSome)).map
      (coerceRow (stairCoerceList df.cols)) := by
  unfold stairKept
  rw [coerceCols_rows, List.filter_map]
  congr 1
  apply List.filter_congr
  intro r _
  simp only [Function.comp_apply]
  rw [isna_coerceRow _ r _ (spm_mem_stairCoerceList h)]
  cases (r "spm").toNumeric <;> rfl

theorem stairKept_keys (df : DF) (h : "spm" ∈ df.cols) :
    (stairKept df).map (fun r => (r "spm").qval) =
      (df.rows.filter (fun r => ((r "spm").toNumeric).isSome)).map
        (fun r => (r "spm").qval) := by
  rw [stairKept_eq df h, List.map_map]
  exact List.map_congr_left (fun r _ => qval_coerceRow _ r _)

theorem stairKept_group (df : DF) (h : "spm" ∈ df.cols) (k : ℚ) :
    (stairKept df).filter (fun r => decide ((r "spm").qval = k)) =
      (stairGroup df k).map (coerceRow (stairCoerceList df.cols)) := by
  rw [stairKept_eq df h, List.filter_map]
  unfold stairGroup
  rw [List.filter_filter]
  congr 1
  apply List.filter_congr
  intro r _
  simp only [Function.comp_apply]
  rw [qval_coerceRow]

/-- The `spm` non-null count over a group of rows that all have a coercible
`spm` is the group size. -/
theorem countNonNull_stairGroup (df : DF) (h : "spm" ∈ df.cols)
    (grpO : List Row)
    (hval : ∀ r ∈ grpO, ((r "spm").toNumeric).isSome = true) :
    countNonNull ((grpO.map (coerceRow (stairCoerceList df.cols))).map
      (fun r => r "spm")) = grpO.length := by
  unfold countNonNull
  rw [List.map_map]
  simp only [Function.comp_def]
  have hall : ∀ x ∈ grpO.map (fun r => coerceRow (stairCoerceList df.cols) r
      "spm"), (!x.isna) = true := by
    intro x hx
    rcases List.mem_map.mp hx with ⟨r, hr, rfl⟩
    rw [isna_coerceRow _ r _ (spm_mem_stairCoerceList h)]
    have hv := hval r hr
    cases hn : (r "spm").toNumeric
    · rw [hn] at hv; simp at hv
    · rfl
  rw [List.filter_eq_self.mpr hall, List.length_map]

/- ------------------------------------------------------------------ -/
/- Partition-sum lemmas: group sizes add up to the total.              -/
/- ------------------------------------------------------------------ -/

theorem sum_if_mem {κ : Type} [DecidableEq κ] (ks : List κ) (k0 : κ)
    (hnd : ks.Nodup) (hmem : k0 ∈ ks) :
    (ks.map (fun k => if k0 = k then (1 : ℕ) else 0)).sum = 1 := by
  induction ks with
  | nil => simp at hmem
  | cons k ks ih =>
    rw [List.map_cons, List.sum_cons]
    rcases List.mem_cons.mp hmem with rfl | hmem2
    · rw [if_pos rfl]
      have hz : (ks.map (fun k => if k0 = k then (1 : ℕ) else 0)).sum = 0 := by
        apply List.sum_eq_zero
        intro x hx
        rcases List.mem_map.mp hx with ⟨k', hk', rfl⟩
        rw [if_neg]
        rintro rfl
        exact (List.nodup_cons.mp hnd).1 hk'
      rw [hz]
    · have hne : k0 ≠ k := fun he => (List.nodup_cons.mp hnd).1 (he ▸ hmem2)
      rw [if_neg hne, ih (List.nodup_cons.mp hnd).2 hmem2]

theorem sum_map_add_nat {α : Type} (l : List α) (f g : α → ℕ) :
    (l.map (fun a => f a + g a)).sum = (l.map f).sum + (l.map g).sum := by
  induction l with
  | nil => rfl
  | cons x xs ih =>
    rw [List.map_cons, List.sum_cons, ih, List.map_cons, List.sum_cons,
      List.map_cons, List.sum_cons]
    omega

/-- Group sizes over a duplicate-free covering key list sum to the total
number of rows. -/
theorem sum_group_lengths {κ : Type} [DecidableEq κ] (key : Row → κ)
    (xs : List Row) (ks : List κ) (hnd : ks.Nodup)
    (hcov : ∀ x ∈ xs, key x ∈ ks) :
    (ks.map (fun k =>
      (xs.filter (fun x => decide (key x = k))).length)).sum = xs.length := by
  induction xs with
  | nil => simp
  | cons x xs ih =>
    have hstep : ∀ k, ((x :: xs).filter
        (fun x => decide (key x = k))).length =
        (if key x = k then 1 else 0) +
          (xs.filter (fun x => decide (key x = k))).length := by
      intro k
      rw [List.filter_cons]
      by_cases hk : key x = k
      · simp [hk]
        try omega
      · simp [hk]
        try omega
    have hmap : (ks.map (fun k => ((x :: xs).filter
        (fun x => decide (key x = k))).length)).sum =
        (ks.map (fun k => (if key x = k then 1 else 0) +
          (xs.filter (fun x => decide (key x = k))).length)).sum := by
      congr 1
      exact List.map_congr_left (fun k _ => hstep k)
    rw [hmap, sum_map_add_nat,
      ih (fun a ha => hcov a (List.mem_cons_of_mem _ ha)),
      sum_if_mem ks (key x) hnd (hcov x (List.mem_cons_self _ _))]
    simp [List.length_cons]
    omega

/- ------------------------------------------------------------------ -/
/- Normal forms of the two summaries on the raw input rows.            -/
/- ------------------------------------------------------------------ -/

theorem mkTreadRow_coerce (df : DF) (h1 : "speed_mph" ∈ df.cols)
    (h2 : "grade_pct" ∈ df.cols) (grpO : List Row)
    (hval : ∀ r ∈ grpO, validTread df.cols r = true) (k : ℚ × ℚ) :
    mkTreadRow (treadEffMeasCol df.cols) (treadEffTheoCol df.cols)
      (grpO.map (coerceRow (treadCoerceList df.cols))) k =
      ⟨k.1, k.2, grpO.length,
        (treadEffMeasCol df.cols).map
          (fun c => meanSkip (grpO.map (fun r => r c))),
        (treadEffTheoCol df.cols).map
          (fun c => meanSkip (grpO.map (fun r => r c)))⟩ := by
  have hm : ∀ o : Option String,
      o.map (fun c => meanSkip ((grpO.map
        (coerceRow (treadCoerceList df.cols))).map (fun r => r c))) =
      o.map (fun c => meanSkip (grpO.map (fun r => r c))) := by
    intro o
    cases o with
    | none => rfl
    | some c =>
      show some (meanSkip ((grpO.map
        (coerceRow (treadCoerceList df.cols))).map (fun r => r c))) =
        some (meanSkip (grpO.map (fun r => r c)))
      rw [meanSkip_coerce]
  unfold mkTreadRow
  rw [countNonNull_group df h1 h2 grpO hval, hm, hm]

theorem mkStairRow_coerce (df : DF) (h : "spm" ∈ df.cols)
    (grpO : List Row)
    (hval : ∀ r ∈ grpO, ((r "spm").toNumeric).isSome = true) (k : ℚ) :
    mkStairRow (stairEffTheoryCol df.cols)
      (grpO.map (coerceRow (stairCoerceList df.cols))) k =
      ⟨k, meanSkip (grpO.map (fun r => r "aw_active_kcal_min")),
        meanSkip (grpO.map (fun r => r "theory_net_kcal_min")),
        match stairEffTheoryCol df.cols with
        | some c => Sum.inl (meanSkip (grpO.map (fun r => r c)))
        | none => Sum.inr grpO.length⟩ := by
  unfold mkStairRow
  rw [meanSkip_coerce, meanSkip_coerce]
  cases he : stairEffTheoryCol df.cols with
  | none =>
    rw [countNonNull_stairGroup df h grpO hval]
  | some c =>
    show StairRow.mk _ _ (meanSkip (grpO.map
      (fun r => r "theory_net_kcal_min"))) (Sum.inl (meanSkip ((grpO.map
        (coerceRow (stairCoerceList df.cols))).map (fun r => r c)))) = _
    rw [meanSkip_coerce]

theorem treadGroup_valid (df : DF) (k : ℚ × ℚ) :
    ∀ r ∈ treadGroup df k, validTread df.cols r = true := by
  intro r hr
  unfold treadGroup at hr
  simp only [List.mem_filter, Bool.and_eq_true] at hr
  exact hr.2.2

theorem stairGroup_valid (df : DF) (k : ℚ) :
    ∀ r ∈ stairGroup df k, ((r "spm").toNumeric).isSome = true := by
  intro r hr
  unfold stairGroup at hr
  simp only [List.mem_filter, Bool.and_eq_true] at hr
  exact hr.2.2

/-- Normal form of the treadmill summary: one output row per sorted distinct
valid key, with all aggregates phrased on the raw input group. -/
theorem tread_plot_eq (df : DF) (h1 : "speed_mph" ∈ df.cols)
    (h2 : "grade_pct" ∈ df.cols) :
    treadmill_efficiency_plot df = Except.ok
      ((sortedKeys ((df.rows.filter (validTread df.cols)).map keyOf)).map
        (fun k => ⟨k.1, k.2, (treadGroup df k).length,
          (treadEffMeasCol df.cols).map
            (fun c => meanSkip ((treadGroup df k).map (fun r => r c))),
          (treadEffTheoCol df.cols).map
            (fun c => meanSkip ((treadGroup df k).map (fun r => r c)))⟩)) := by
  unfold treadmill_efficiency_plot
  rw [if_pos ⟨h1, h2⟩, treadKept_keys df h1 h2]
  apply congrArg
  apply List.map_congr_left
  intro k _
  rw [treadKept_group df h1 h2 k]
  exact mkTreadRow_coerce df h1 h2 (treadGroup df k) (treadGroup_valid df k) k

/-- Normal form of the stair summary: one output row per sorted distinct
valid `spm`, with all aggregates phrased on the raw input group. -/
theorem stair_plot_eq (df : DF) (h1 : "spm" ∈ df.cols)
    (h2 : "aw_active_kcal_min" ∈ df.cols)
    (h3 : "theory_net_kcal_min" ∈ df.cols) :
    stair_efficiency_plot df = Except.ok
      ((sortedQKeys ((df.rows.filter
          (fun r => ((r "spm").toNumeric).isSome)).map
            (fun r => (r "spm").qval))).map
        (fun k => ⟨k, meanSkip ((stairGroup df k).map
            (fun r => r "aw_active_kcal_min")),
          meanSkip ((stairGroup df k).map
            (fun r => r "theory_net_kcal_min")),
          match stairEffTheoryCol df.cols with
          | some c => Sum.inl (meanSkip ((stairGroup df k).map
              (fun r => r c)))
          | none => Sum.inr (stairGroup df k).length⟩)) := by
  unfold stair_efficiency_plot
  rw [if_pos ⟨h1, h2, h3⟩, stairKept_keys df h1]
  apply congrArg
  apply List.map_congr_left
  intro k _
  rw [stairKept_group df h1 k]
  exact mkStairRow_coerce df h1 (stairGroup df k) (stairGroup_valid df k) k

theorem treadGroup_eq_filter (df : DF) (k : ℚ × ℚ) :
    treadGroup df k = (df.rows.filter (validTread df.cols)).filter
      (fun r => decide (keyOf r = k)) := by
  unfold treadGroup
  rw [List.filter_filter]

/- ------------------------------------------------------------------ -/
/- Invariance of the summaries under dropping NaN-keyed raw rows.      -/
/- ------------------------------------------------------------------ -/

theorem stairKept_filter_spm (cols : List String) (rows : List Row)
    (h : "spm" ∈ cols) :
    stairKept ⟨cols, rows.filter (fun r => ((r "spm").toNumeric).isSome)⟩ =
      stairKept ⟨cols, rows⟩ := by
  rw [stairKept_eq ⟨cols, rows.filter _⟩ h, stairKept_eq ⟨cols, rows⟩ h]
  simp only []
  rw [List.filter_filter]
  congr 1
  apply List.filter_congr
  intro r _
  rw [Bool.and_self]

theorem treadKept_filter_grade (cols : List String) (rows : List Row)
    (h1 : "speed_mph" ∈ cols) (h2 : "grade_pct" ∈ cols) :
    treadKept ⟨cols,
        rows.filter (fun r => ((r "grade_pct").toNumeric).isSome)⟩ =
      treadKept ⟨cols, rows⟩ := by
  rw [treadKept_eq ⟨cols, rows.filter _⟩ h1 h2,
    treadKept_eq ⟨cols, rows⟩ h1 h2]
  simp only []
  rw [List.filter_filter]
  congr 1
  apply List.filter_congr
  intro r _
  cases hv : validTread cols r with
  | false => rw [Bool.false_and]
  | true =>
    have hg : ((r "grade_pct").toNumeric).isSome = true := by
      unfold validTread at hv
      rw [List.all_eq_true] at hv
      apply hv
      unfold treadNeed
      simp
    rw [hg, Bool.and_self]

/-- Dropping the stair rows whose `spm` coerces to NaN does not change the
stair summary at all: such rows are excluded from the aggregation. -/
theorem stair_plot_drop_nan_spm (cols : List String) (rows : List Row) :
    stair_efficiency_plot
        ⟨cols, rows.filter (fun r => ((r "spm").toNumeric).isSome)⟩ =
      stair_efficiency_plot ⟨cols, rows⟩ := by
  simp only [stair_efficiency_plot]
  by_cases hc : "spm" ∈ cols ∧ "aw_active_kcal_min" ∈ cols ∧
      "theory_net_kcal_min" ∈ cols
  · rw [if_pos hc, if_pos hc, stairKept_filter_spm cols rows hc.1]
  · rw [if_neg hc, if_neg hc]

/-- Dropping the treadmill rows whose `grade_pct` coerces to NaN does not
change the treadmill summary at all. -/
theorem tread_plot_drop_nan_grade (cols : List String) (rows : List Row) :
    treadmill_efficiency_plot
        ⟨cols, rows.filter (fun r => ((r "grade_pct").toNumeric).isSome)⟩ =
      treadmill_efficiency_plot ⟨cols, rows⟩ := by
  simp only [treadmill_efficiency_plot]
  by_cases hc : "speed_mph" ∈ cols ∧ "grade_pct" ∈ cols
  · rw [if_pos hc, if_pos hc, treadKept_filter_grade cols rows hc.1 hc.2]
  · rw [if_neg hc, if_neg hc]

/- ------------------------------------------------------------------ -/
/- Claim theorems.                                                     -/
/- ------------------------------------------------------------------ -/

/-- C1: the claim (and the function's own docstring, "np.nan where
met_W<=0") requires `efficiency` to return null for every NEGATIVE `met_W`.
The code only replaces non-finite quotients by NaN, so at the failing input
`mech_W = 1, met_W = -2` it returns the finite value `-0.5`, not null — while
the claim's other test points (`met_W = 0` gives null for any `mech_W`, and
`efficiency(0, 100) = 0`, and a non-finite `mech_W` gives null) do hold. -/
theorem C1_efficiency_negative_met_is_not_null :
    efficiency (PyFloat.fin 1) (PyFloat.fin (-2)) = PyFloat.fin (-(1/2)) ∧
    PyFloat.fin (-(1/2)) ≠ PyFloat.nan ∧
    (∀ m : ℚ, efficiency (PyFloat.fin m) (PyFloat.fin 0) = PyFloat.nan) ∧
    efficiency (PyFloat.fin 0) (PyFloat.fin 100) = PyFloat.fin 0 ∧
    (∀ q : ℚ, efficiency PyFloat.nan (PyFloat.fin q) = PyFloat.nan) ∧
    (∀ q : ℚ, efficiency PyFloat.inf (PyFloat.fin q) = PyFloat.nan) := by
  refine ⟨?_, by simp, ?_, ?_, fun q => rfl, ?_⟩
  · norm_num [efficiency, PyFloat.div, PyFloat.isfinite]
  · intro m
    unfold efficiency PyFloat.div
    by_cases h : m = 0
    · simp [h, PyFloat.isfinite]
    · simp only [h, if_false, if_pos rfl]
      by_cases h2 : 0 < m
      · simp [h2, PyFloat.isfinite]
      · simp [h2, PyFloat.isfinite]
  · norm_num [efficiency, PyFloat.div, PyFloat.isfinite]
  · intro q
    unfold efficiency PyFloat.div
    by_cases h : 0 ≤ q
    · simp [h, PyFloat.isfinite]
    · simp [h, PyFloat.isfinite]

/-- C2: the claim requires `remove_flat_treadmill` to drop the flat
treadmill row `{"modality": "Treadmill", "grade_pct": 0.0}` at tolerance 0.
Instead the call raises: line 86 invokes `.strip()` on a pandas `Series`
(`astype(str)` returns a `Series`, whose string methods live under `.str`),
an `AttributeError` on every non-empty input, so no filtered frame is ever
returned. -/
theorem C2_remove_flat_treadmill_raises_on_spec_example :
    remove_flat_treadmill exFlatDF 0 = Except.error attrErrStrip ∧
    ∀ res : DF, remove_flat_treadmill exFlatDF 0 ≠ Except.ok res := by
  constructor
  · rfl
  · intro res h
    rw [show remove_flat_treadmill exFlatDF 0 = Except.error attrErrStrip
      from rfl] at h
    simp at h

/-- C4: the claim says rows with non-numeric `grade_pct` are retained and
that the function never raises.  The call raises `AttributeError` on line 86
(`Series.strip` does not exist) before the grade coercion is ever reached,
so the row `{"modality": "stair", "grade_pct": "abc"}` is not retained — no
frame is returned at all. -/
theorem C4_remove_flat_treadmill_raises_on_bad_grade :
    remove_flat_treadmill exBadGradeDF 0 = Except.error attrErrStrip ∧
    ∀ res : DF, remove_flat_treadmill exBadGradeDF 0 ≠ Except.ok res := by
  constructor
  · rfl
  · intro res h
    rw [show remove_flat_treadmill exBadGradeDF 0 = Except.error attrErrStrip
      from rfl] at h
    simp at h

/-- C5: the claimed length invariant (output length + dropped = input
length, stair rows all retained) presupposes that the function returns a
frame.  On any non-empty input — here a single stair record — line 86
raises `AttributeError`, so there is no output frame and the stair record
is not retained. -/
theorem C5_remove_flat_treadmill_no_output_frame :
    remove_flat_treadmill exStairCleanDF 0 = Except.error attrErrStrip ∧
    (∀ res : DF, remove_flat_treadmill exStairCleanDF 0 ≠ Except.ok res) ∧
    (∀ df : DF, df.rows ≠ [] → df.cols ≠ [] →
      remove_flat_treadmill df 0 ≠
        Except.ok ⟨df.cols, df.rows.filter (fun _ => true)⟩) := by
  refine ⟨rfl, ?_, ?_⟩
  · intro res h
    rw [show remove_flat_treadmill exStairCleanDF 0 = Except.error attrErrStrip
      from rfl] at h
    simp at h
  · intro df hr hc h
    unfold remove_flat_treadmill at h
    rw [if_neg] at h
    · by_cases hm : "modality" ∈ df.cols
      · rw [if_pos hm] at h
        simp at h
      · rw [if_neg hm] at h
        simp at h
    · simp [List.isEmpty_iff, hr, hc]

/-- C7: `vo2_treadmill_gross(speed_mph, grade_pct)` is exactly
`3.5 + 0.1*S + 1.8*S*G` with `S = speed_mph * 26.8224` and
`G = grade_pct / 100`, and `vo2_treadmill_gross(0, 0) = 3.5`. -/
theorem C7_vo2_treadmill_formula :
    (∀ s g : ℚ, vo2_treadmill_gross_mLkgmin s g =
      3.5 + 0.1 * (s * 26.8224) + 1.8 * (s * 26.8224) * (g / 100)) ∧
    vo2_treadmill_gross_mLkgmin 0 0 = 3.5 := by
  constructor
  · intro s g
    rfl
  · unfold vo2_treadmill_gross_mLkgmin
    norm_num

/-- C8: `net_kcal_per_min` equals `kcal_per_min` of the gross VO2 minus the
resting 3.5 mL/kg/min; it is zero at gross VO2 3.5 for every mass, and
strictly negative whenever gross VO2 is below resting and the mass is
positive. -/
theorem C8_net_kcal_relation :
    (∀ v m : ℚ, net_kcal_per_min_from_gross_vo2 v m =
      kcal_per_min_from_vo2_mLkgmin (v - 3.5) m) ∧
    (∀ m : ℚ, net_kcal_per_min_from_gross_vo2 3.5 m = 0) ∧
    (∀ v m : ℚ, v < 3.5 → 0 < m →
      net_kcal_per_min_from_gross_vo2 v m < 0) := by
  refine ⟨fun v m => rfl, ?_, ?_⟩
  · intro m
    unfold net_kcal_per_min_from_gross_vo2 kcal_per_min_from_vo2_mLkgmin
    norm_num
  · intro v m hv hm
    unfold net_kcal_per_min_from_gross_vo2 kcal_per_min_from_vo2_mLkgmin
    show (v - 3.5) * m / 1000 * 5 < 0
    have h1 : (v - 3.5) * m < 0 :=
      mul_neg_of_neg_of_pos (by linarith) hm
    have h2 : (v - 3.5) * m / 1000 < 0 :=
      div_neg_of_neg_of_pos h1 (by norm_num)
    exact mul_neg_of_neg_of_pos h2 (by norm_num)

/-- C8 witness: at gross VO2 0 and mass 70 kg the hypotheses hold and the
net rate is negative. -/
theorem C8_net_kcal_relation_witness :
    net_kcal_per_min_from_gross_vo2 0 70 < 0 :=
  C8_net_kcal_relation.2.2 0 70 (by norm_num) (by norm_num)

/-- C9: the cleaner never mutates the caller's frame: line 85 copies the
input (`out = df.copy()`) and every subsequent write — including the one
whose right-hand side raises — targets the copy, so the caller's frame is
unchanged in every branch, error or not. -/
theorem C9_remove_flat_treadmill_no_mutation :
    ∀ (df : DF) (tol_pct : ℚ),
      (remove_flat_treadmill_frame df tol_pct).1 = df := by
  intro df tol
  unfold remove_flat_treadmill_frame
  by_cases h : df.rows.isEmpty || df.cols.isEmpty
  · rw [if_pos h]
  · rw [if_neg h]
    by_cases h2 : "modality" ∈ df.cols
    · simp [h2]
    · simp [h2]

/-- C3 counterexample: the aggregators only exclude records whose key
coerces to NaN — a NEGATIVE `spm` or `grade_pct` is aggregated normally.
The one-record frame with `spm = -30` produces a stair summary group keyed
`-30` (with its kcal means and a row count of 1), and the one-record frame
with `grade_pct = -5` produces a treadmill summary group keyed `(3, -5)`,
contradicting the claim that such records contribute to no summary group. -/
theorem C3_counterexample_negative_keys_form_groups :
    stair_efficiency_plot exStairNegDF =
      Except.ok [⟨-30, some 5, some 4, Sum.inr 1⟩] ∧
    ((-30 : ℚ) < 0) ∧
    treadmill_efficiency_plot exTreadNegDF =
      Except.ok [⟨3, -5, 1, none, none⟩] ∧
    ((-5 : ℚ) < 0) := by
  refine ⟨?_, by norm_num, ?_, by norm_num⟩
  · rw [stair_plot_eq exStairNegDF (by decide) (by decide) (by decide)]
    simp [exStairNegDF, exStairNegRow, stairGroup, stairEffTheoryCol,
      CellVal.toNumeric, CellVal.qval, sortedQKeys, insertQKey, meanSkip,
      List.filter, List.filterMap]
  · rw [tread_plot_eq exTreadNegDF (by decide) (by decide)]
    simp [exTreadNegDF, exTreadNegRow, treadGroup, treadEffMeasCol,
      treadEffTheoCol, pick, validTread, treadNeed, keyOf,
      CellVal.toNumeric, CellVal.qval, sortedKeys, insertKey, keyLt,
      meanSkip, List.filter, List.filterMap]

/-- C3 amended: a record is excluded from aggregation exactly when its
grouping key (`spm` for stairs, `grade_pct` for treadmill) is missing or
coerces to NaN; dropping all such records beforehand leaves either summary
unchanged.  (Negative or otherwise unusual numeric keys are NOT excluded —
see the counterexample.) -/
theorem C3_amended_nan_keys_excluded :
    (∀ (cols : List String) (rows : List Row),
      stair_efficiency_plot
          ⟨cols, rows.filter (fun r => ((r "spm").toNumeric).isSome)⟩ =
        stair_efficiency_plot ⟨cols, rows⟩) ∧
    (∀ (cols : List String) (rows : List Row),
      treadmill_efficiency_plot
          ⟨cols, rows.filter (fun r => ((r "grade_pct").toNumeric).isSome)⟩ =
        treadmill_efficiency_plot ⟨cols, rows⟩) :=
  ⟨stair_plot_drop_nan_spm, tread_plot_drop_nan_grade⟩

/-- C6: the treadmill aggregator groups the valid records by their exact
`(speed_mph, grade_pct)` key: the output has one row per distinct valid
key, strictly sorted ascending by speed then grade; each row's `n` is the
size of its raw group and its efficiency fields are the NaN-skipping means
of that group's (per-column) values when the column exists; records without
valid numeric values in the `need` columns are excluded and every valid
record's key appears.  On the spec's example (two records at `(3.0, 5.0)`
with measured efficiencies `0.10` and `0.20`) the summary is the single row
`n = 2`, `eff_meas = 0.15`. -/
theorem C6_treadmill_grouping :
    (∀ df : DF, "speed_mph" ∈ df.cols → "grade_pct" ∈ df.cols →
      ∃ out, treadmill_efficiency_plot df = Except.ok out ∧
        List.Pairwise (fun a b =>
          keyLt (a.speed_mph, a.grade_pct) (b.speed_mph, b.grade_pct)) out ∧
        (∀ r ∈ out,
          (∃ row ∈ df.rows, validTread df.cols row = true ∧
            keyOf row = (r.speed_mph, r.grade_pct)) ∧
          r.n = (treadGroup df (r.speed_mph, r.grade_pct)).length ∧
          r.eff_meas = (treadEffMeasCol df.cols).map (fun c =>
            meanSkip ((treadGroup df (r.speed_mph, r.grade_pct)).map
              (fun row => row c))) ∧
          r.eff_theory = (treadEffTheoCol df.cols).map (fun c =>
            meanSkip ((treadGroup df (r.speed_mph, r.grade_pct)).map
              (fun row => row c)))) ∧
        (∀ row ∈ df.rows, validTread df.cols row = true →
          ∃ r ∈ out, (r.speed_mph, r.grade_pct) = keyOf row)) ∧
    treadmill_efficiency_plot exTreadDF =
      Except.ok [⟨3, 5, 2, some (some (3/20)), none⟩] := by
  constructor
  · intro df h1 h2
    refine ⟨_, tread_plot_eq df h1 h2, ?_, ?_, ?_⟩
    · rw [List.pairwise_map]
      exact (pairwise_sortedKeys _).imp (fun hab => hab)
    · intro r hr
      rcases List.mem_map.mp hr with ⟨k, hk, rfl⟩
      constructor
      · have hk' := (mem_sortedKeys _ _).mp hk
        rcases List.mem_map.mp hk' with ⟨row, hrow, hkey⟩
        rw [List.mem_filter] at hrow
        exact ⟨row, hrow.1, hrow.2, hkey⟩
      · exact ⟨rfl, rfl, rfl⟩
    · intro row hrow hval
      refine ⟨_, List.mem_map.mpr ⟨keyOf row, ?_, rfl⟩, rfl⟩
      apply (mem_sortedKeys _ _).mpr
      exact List.mem_map.mpr ⟨row, List.mem_filter.mpr ⟨hrow, hval⟩, rfl⟩
  · rw [tread_plot_eq exTreadDF (by decide) (by decide)]
    simp [exTreadDF, exTreadRow1, exTreadRow2, treadGroup, treadEffMeasCol,
      treadEffTheoCol, pick, validTread, treadNeed, keyOf,
      CellVal.toNumeric, CellVal.qval, sortedKeys, insertKey, keyLt,
      meanSkip, List.filter, List.filterMap]
    norm_num

/-- C6 witness: the general grouping theorem applied to the spec's example
frame, its column hypotheses discharged by computation. -/
theorem C6_treadmill_grouping_witness :
    ∃ out, treadmill_efficiency_plot exTreadDF = Except.ok out ∧
      List.Pairwise (fun a b =>
        keyLt (a.speed_mph, a.grade_pct) (b.speed_mph, b.grade_pct)) out ∧
      (∀ r ∈ out,
        (∃ row ∈ exTreadDF.rows, validTread exTreadDF.cols row = true ∧
          keyOf row = (r.speed_mph, r.grade_pct)) ∧
        r.n = (treadGroup exTreadDF (r.speed_mph, r.grade_pct)).length ∧
        r.eff_meas = (treadEffMeasCol exTreadDF.cols).map (fun c =>
          meanSkip ((treadGroup exTreadDF (r.speed_mph, r.grade_pct)).map
            (fun row => row c))) ∧
        r.eff_theory = (treadEffTheoCol exTreadDF.cols).map (fun c =>
          meanSkip ((treadGroup exTreadDF (r.speed_mph, r.grade_pct)).map
            (fun row => row c)))) ∧
      (∀ row ∈ exTreadDF.rows, validTread exTreadDF.cols row = true →
        ∃ r ∈ out, (r.speed_mph, r.grade_pct) = keyOf row) :=
  C6_treadmill_grouping.1 exTreadDF (by decide) (by decide)

/-- C10: when a measured-efficiency column is present, a record whose
measured efficiency coerces to NaN is invalid even with valid keys, and the
output group sizes sum to the number of fully valid records only — such a
record contributes to no group's `n` (and, by C6's mean characterisation,
to no mean). -/
theorem C10_nan_eff_meas_excluded :
    ∀ df : DF, "speed_mph" ∈ df.cols → "grade_pct" ∈ df.cols →
    ∀ c : String, treadEffMeasCol df.cols = some c →
    ∃ out, treadmill_efficiency_plot df = Except.ok out ∧
      (out.map TreadRow.n).sum = df.rows.countP (validTread df.cols) ∧
      (∀ row ∈ df.rows, (row c).toNumeric = none →
        validTread df.cols row = false) := by
  intro df h1 h2 c hc
  refine ⟨_, tread_plot_eq df h1 h2, ?_, ?_⟩
  · rw [List.map_map]
    show ((sortedKeys ((df.rows.filter (validTread df.cols)).map
      keyOf)).map (fun k => (treadGroup df k).length)).sum = _
    have hmap : (sortedKeys ((df.rows.filter (validTread df.cols)).map
        keyOf)).map (fun k => (treadGroup df k).length) =
        (sortedKeys ((df.rows.filter (validTread df.cols)).map
          keyOf)).map (fun k => ((df.rows.filter
            (validTread df.cols)).filter
              (fun r => decide (keyOf r = k))).length) :=
      List.map_congr_left (fun k _ => by rw [treadGroup_eq_filter])
    rw [hmap, sum_group_lengths keyOf (df.rows.filter (validTread df.cols))
      (sortedKeys ((df.rows.filter (validTread df.cols)).map keyOf))
      (nodup_sortedKeys _)
      (fun x hx => (mem_sortedKeys _ _).mpr (List.mem_map_of_mem _ hx)),
      List.countP_eq_length_filter]
  · intro row _ hnone
    have hcm : c ∈ treadNeed df.cols := by
      unfold treadNeed
      rw [hc]
      simp
    cases hvt : validTread df.cols row with
    | false => rfl
    | true =>
      unfold validTread at hvt
      rw [List.all_eq_true] at hvt
      have hv := hvt _ hcm
      rw [hnone] at hv
      simp at hv

/-- C10 witness: on a frame with two records at key `(3, 5)`, one of them
with NaN measured efficiency, the group sizes sum to 1 (the NaN record is
counted nowhere) and the NaN record is invalid. -/
theorem C10_nan_eff_meas_excluded_witness :
    ∃ out, treadmill_efficiency_plot exTreadNaNDF = Except.ok out ∧
      (out.map TreadRow.n).sum =
        exTreadNaNDF.rows.countP (validTread exTreadNaNDF.cols) ∧
      (∀ row ∈ exTreadNaNDF.rows, (row "eff_measured").toNumeric = none →
        validTread exTreadNaNDF.cols row = false) :=
  C10_nan_eff_meas_excluded exTreadNaNDF (by decide) (by decide)
    "eff_measured" (by decide)
